import Mathlib

/-!
Shallow embedding of the scoring engine in `src/evaluator.py`
(class `ConsistencyEvaluator`): number extraction from response text,
correctness checking, and the accuracy / consistency / error-breakdown
aggregators, together with theorems settling the specification's claims
about them.  Python floats are modelled as exact rationals (`ℚ`); the
arithmetic performed by the evaluator (sums of the literals `0.33`,
`0.67`, `1.0`, counts, and divisions by positive counts) is exact in
this range.  Python's `ZeroDivisionError` is modelled by returning
`none` from the one unguarded division site.
-/

/-! ## Character helpers (regex character classes) -/

/-- Python regex `\s` for the whitespace characters relevant here. -/
def isSpaceC (c : Char) : Bool :=
  c = ' ' || c = '\t' || c = '\n' || c = '\r' || c = Char.ofNat 11 || c = Char.ofNat 12

/-- Split a maximal run of decimal digits (regex `\d*`) off the front. -/
def splitDigits : List Char → List Char × List Char
  | [] => ([], [])
  | c :: cs =>
    if c.isDigit then
      let r := splitDigits cs
      (c :: r.1, r.2)
    else ([], c :: cs)

/-- Length of the maximal run of whitespace (regex `\s*`, greedy). -/
def countSpaces : List Char → Nat
  | [] => 0
  | c :: cs => if isSpaceC c then countSpaces cs + 1 else 0

/-- Does the second list start with the first (a literal regex fragment)? -/
def litMatch : List Char → List Char → Bool
  | [], _ => true
  | _ :: _, [] => false
  | a :: as, b :: bs => a == b && litMatch as bs

/-- Consume an optional leading sign (regex `[+-]?`). -/
def signOpt : List Char → List Char × List Char
  | [] => ([], [])
  | c :: cs => if c = '+' ∨ c = '-' then ([c], cs) else ([], c :: cs)

/-! ## Numeric tokens -/

/-- Value of a digit string, most significant digit first. -/
def digitsToNat (ds : List Char) : Nat :=
  ds.foldl (fun a c => a * 10 + (c.toNat - '0'.toNat)) 0

/-- Python `float(num_str)` restricted to the numeral shapes the extraction
rules produce after comma-stripping: optional sign, one or more integer
digits, an optional `.` with an optional fraction.  Anything else is a
`ValueError`, modelled as `none`.  The decimal value
`±(ip . fp) = ±(ip·10^k + fp) / 10^k` is built with `mkRat` (rather than
`ℚ`'s field operations, which Lean marks irreducible) so that concrete
runs of the extractor reduce inside `decide`/`rfl` proofs. -/
def parseFloat (cs : List Char) : Option ℚ :=
  let sr : Int × List Char :=
    match cs with
    | '+' :: t => (1, t)
    | '-' :: t => (-1, t)
    | t => (1, t)
  let dr := splitDigits sr.2
  if dr.1 = [] then none
  else
    match dr.2 with
    | [] => some (mkRat (sr.1 * (digitsToNat dr.1 : Int)) 1)
    | '.' :: t =>
      let fr := splitDigits t
      if fr.2 = [] then
        some (mkRat (sr.1 * ((digitsToNat dr.1 * 10 ^ fr.1.length + digitsToNat fr.1 : Nat) : Int))
          (10 ^ fr.1.length))
      else none
    | _ => none

/-- Python `num_str.replace(",", "")`. -/
def stripCommas (cs : List Char) : List Char :=
  cs.filter (fun c => c ≠ ',')

/-- The maximal (greedy) match of `[+-]?\d+\.?\d*` at the front of the
input, or `none` if the grammar does not match here at all. -/
def numMax (cs : List Char) : Option (List Char) :=
  let sr := signOpt cs
  let dr := splitDigits sr.2
  if dr.1 = [] then none
  else
    match dr.2 with
    | '.' :: r3 => some (sr.1 ++ dr.1 ++ '.' :: (splitDigits r3).1)
    | _ => some (sr.1 ++ dr.1)

/-- All matches of `[+-]?\d+\.?\d*` at the front of the input, longest
first — the order in which a backtracking regex engine offers them to the
rest of the pattern.  Each candidate is paired with the remaining input. -/
def numCandidates (cs : List Char) : List (List Char × List Char) :=
  match numMax cs with
  | none => []
  | some m =>
    let minL : Nat :=
      match cs with
      | c :: _ => if c = '+' ∨ c = '-' then 2 else 1
      | [] => 1
    (List.range (m.length + 1 - minL)).map (fun i =>
      let L := m.length - i
      (cs.take L, cs.drop L))

/-! ## The four extraction rules of `extract_number`

Rule 1: `(?:答案是|結果是|等於|是)\s*([+-]?\d+\.?\d*)`
Rule 2: `([+-]?\d+\.?\d*)\s*(?:元|個|本|顆|公尺|公分|公斤)`
Rule 3: `(?:^|\s)([+-]?\d+\.?\d*)(?:\s|$)`
Rule 4: `([+-]?\d{1,3}(?:,\d{3})+\.?\d*)`

Each `pNAt` matcher tries the pattern anchored at the front of the given
suffix and returns the captured group together with the total number of
characters the whole match consumes (the scanner resumes after them). -/

/-- The literal alternatives of rule 1 ("the answer is / the result is /
equals / is"), in source order; their first characters are pairwise
distinct, so at most one can match at a given position. -/
def answerPhrases : List (List Char) :=
  [("答案是").data, ("結果是").data, ("等於").data, ("是").data]

/-- The unit-word alternatives of rule 2, in source order. -/
def unitWords : List (List Char) :=
  [("元").data, ("個").data, ("本").data, ("顆").data,
   ("公尺").data, ("公分").data, ("公斤").data]

/-- Rule 1 anchored at the front: answer phrase, optional whitespace, then
the greedy numeral (nothing follows the group, so no backtracking). -/
def p1At (cs : List Char) : Option (List Char × Nat) :=
  answerPhrases.findSome? (fun ph =>
    if litMatch ph cs then
      let r1 := cs.drop ph.length
      let k := countSpaces r1
      (numMax (r1.drop k)).map (fun m => (m, ph.length + k + m.length))
    else none)

/-- Match `\s*` followed by one of the unit words; returns the number of
characters consumed. -/
def stripUnit (cs : List Char) : Option Nat :=
  let k := countSpaces cs
  (unitWords.findSome? (fun u =>
    if litMatch u (cs.drop k) then some u.length else none)).map (fun ul => k + ul)

/-- Rule 2 anchored at the front: numeral candidates are offered longest
first, and the first one followed by `\s*` and a unit word wins. -/
def p2At (cs : List Char) : Option (List Char × Nat) :=
  (numCandidates cs).findSome? (fun gr =>
    (stripUnit gr.2).map (fun k => (gr.1, gr.1.length + k)))

/-- The numeral-then-`(?:\s|$)` tail of rule 3; `pre` counts characters
already consumed by `(?:^|\s)`. -/
def p3Tail (pre : Nat) (cs : List Char) : Option (List Char × Nat) :=
  (numCandidates cs).findSome? (fun gr =>
    match gr.2 with
    | c :: _ => if isSpaceC c then some (gr.1, pre + gr.1.length + 1) else none
    | [] => some (gr.1, pre + gr.1.length))

/-- Rule 3 anchored at the front.  `atStart` records whether this position
is the absolute start of the text (where the `^` branch of `(?:^|\s)`
applies); the `^` branch is tried before the `\s` branch. -/
def p3At (atStart : Bool) (cs : List Char) : Option (List Char × Nat) :=
  match (if atStart then p3Tail 0 cs else none) with
  | some r => some r
  | none =>
    match cs with
    | c :: rest => if isSpaceC c then p3Tail 1 rest else none
    | [] => none

/-- One `,\d{3}` group of rule 4. -/
def oneGroup : List Char → Option (List Char × List Char)
  | ',' :: a :: b :: c :: r =>
    if a.isDigit && b.isDigit && c.isDigit then some ([',', a, b, c], r) else none
  | _ => none

/-- Greedy `(?:,\d{3})*` (fuel-indexed; each step consumes four
characters, so fuel equal to the input length suffices). -/
def commaGroupsAux : Nat → List Char → List Char × List Char
  | 0, cs => ([], cs)
  | n + 1, cs =>
    match oneGroup cs with
    | some gr =>
      let rest := commaGroupsAux n gr.2
      (gr.1 ++ rest.1, rest.2)
    | none => ([], cs)

/-- Rule 4 anchored at the front: `[+-]?\d{1,3}(?:,\d{3})+\.?\d*`.
A digit run longer than three can never satisfy the mandatory comma group
(shorter initial splits leave a digit where the comma must be), and
nothing follows the group, so the tail is pure greedy. -/
def p4At (cs : List Char) : Option (List Char × Nat) :=
  let sr := signOpt cs
  let dr := splitDigits sr.2
  if dr.1 = [] ∨ 3 < dr.1.length then none
  else
    let cg := commaGroupsAux cs.length dr.2
    if cg.1 = [] then none
    else
      let dtail : List Char :=
        match cg.2 with
        | '.' :: r4 => '.' :: (splitDigits r4).1
        | r4 => (splitDigits r4).1
      let g := sr.1 ++ dr.1 ++ cg.1 ++ dtail
      some (g, g.length)

/-! ## `re.findall` scanning and the extractor -/

/-- Left-to-right, non-overlapping scanning as done by `re.findall`:
try the matcher at each position, emit the captured group on success and
resume after the full match, otherwise advance one character.  All four
matchers consume at least one character on success, so fuel equal to the
input length plus one suffices. -/
def scanAll (m : Bool → List Char → Option (List Char × Nat)) :
    Nat → Bool → List Char → List (List Char)
  | 0, _, _ => []
  | fuel + 1, atStart, cs =>
    match cs with
    | [] => []
    | _ :: rest =>
      match m atStart cs with
      | some gk => gk.1 :: scanAll m fuel false (cs.drop gk.2)
      | none => scanAll m fuel false rest

/-- The four extraction rules of `extract_number`, in source order. -/
inductive Pat
  | answerPhrase
  | unitSuffix
  | standalone
  | thousands
deriving DecidableEq

/-- Anchored matcher for each rule (only rule 3 looks at the
start-of-text flag). -/
def patMatcher : Pat → Bool → List Char → Option (List Char × Nat)
  | .answerPhrase, _, cs => p1At cs
  | .unitSuffix, _, cs => p2At cs
  | .standalone, b, cs => p3At b cs
  | .thousands, _, cs => p4At cs

/-- `re.findall(pattern, text)` for one extraction rule: the list of
captured groups, in text order. -/
def findallPat (p : Pat) (s : String) : List String :=
  (scanAll (patMatcher p) (s.data.length + 1) true s.data).map (fun cs => String.mk cs)

/-- The ordered rule list of `extract_number` (`patterns` in the source). -/
def patterns : List Pat :=
  [.answerPhrase, .unitSuffix, .standalone, .thousands]

/-- The rule loop of `extract_number`: for each rule in order, if it has
at least one match, strip commas from the first match and try to parse
it; on a parse failure fall through to the next rule. -/
def tryRules : List Pat → String → Option ℚ
  | [], _ => none
  | p :: ps, t =>
    match findallPat p t with
    | [] => tryRules ps t
    | m :: _ =>
      match parseFloat (stripCommas m.data) with
      | some v => some v
      | none => tryRules ps t

/-- `ConsistencyEvaluator.extract_number`: `None` on empty text, else the
first rule (in `patterns` order) whose first match parses. -/
def extract_number (text : String) : Option ℚ :=
  if text = "" then none
  else tryRules patterns text

/-! ## Data model -/

/-- One response record handed to the evaluator (the dictionaries of the
source; an absent `answer` is modelled by the empty string, which
`extract_number` treats the same way as Python treats `None`).
`category` / `operation` are `Option` because the source reads them with
`resp.get(key, "unknown")`. -/
structure ResponseRecord where
  question_id : String
  version_type : String
  repetition : Nat
  answer : String
  ground_truth : ℚ
  category : Option String
  operation : Option String
deriving DecidableEq

/-- One entry of the `errors` list built by `calculate_accuracy`. -/
structure ErrorEntry where
  question_id : String
  version : String
  ground_truth : ℚ
  extracted : Option ℚ
  response : String
  error_type : String
deriving DecidableEq, Repr

/-- Return value of `calculate_accuracy`. -/
structure AccuracyResult where
  total_responses : Nat
  correct : Nat
  incorrect : Nat
  no_answer : Nat
  accuracy : ℚ
  errors : List ErrorEntry
deriving DecidableEq, Repr

/-- `ConsistencyEvaluator.is_correct`: false when nothing was extracted,
else a tolerance comparison. -/
def is_correct (tolerance : ℚ) (extracted : Option ℚ) (ground_truth : ℚ) : Bool :=
  match extracted with
  | none => false
  | some v => decide (|v - ground_truth| ≤ tolerance)

/-- Per-record contribution inside the `calculate_accuracy` loop:
increments to `correct` and `no_answer` and the appended error entries. -/
def classifyAcc (tol : ℚ) (r : ResponseRecord) : Nat × Nat × List ErrorEntry :=
  match extract_number r.answer with
  | none =>
    (0, 1, [{ question_id := r.question_id, version := r.version_type,
              ground_truth := r.ground_truth, extracted := none,
              response := r.answer, error_type := "no_answer_found" }])
  | some v =>
    if is_correct tol (some v) r.ground_truth then (1, 0, [])
    else
      (0, 0, [{ question_id := r.question_id, version := r.version_type,
                ground_truth := r.ground_truth, extracted := some v,
                response := r.answer, error_type := "incorrect_answer" }])

/-- The fold of the `calculate_accuracy` loop over the record list:
(`correct`, `no_answer`, `errors`), errors in iteration order. -/
def accFold (tol : ℚ) : List ResponseRecord → Nat × Nat × List ErrorEntry
  | [] => (0, 0, [])
  | r :: rs =>
    let h := classifyAcc tol r
    let t := accFold tol rs
    (h.1 + t.1, h.2.1 + t.2.1, h.2.2 ++ t.2.2)

/-- `ConsistencyEvaluator.calculate_accuracy`: `incorrect` is reported as
`total - correct - no_answer`, and `accuracy = correct / total if total > 0
else 0.0`. -/
def calculate_accuracy (tol : ℚ) (responses : List ResponseRecord) : AccuracyResult :=
  let s := accFold tol responses
  { total_responses := responses.length
    correct := s.1
    incorrect := responses.length - s.1 - s.2.1
    no_answer := s.2.1
    accuracy := if 0 < responses.length then (s.1 : ℚ) / (responses.length : ℚ) else 0
    errors := s.2.2 }

/-! ## Consistency aggregator

The consistency scores are rational-number arithmetic on counts and on
the literals `0.33`, `0.67`, `1.0`.  Lean marks `ℚ`'s field operations
irreducible, which would make concrete runs of the aggregator opaque to
`decide`/`rfl`; the three kernel-evaluable helpers below (`qadd`, `qsum`,
`divNat`) therefore stand in for the source's `+`, `sum(...)` and
division by a count, and the lemmas `qadd_eq`, `qsum_eq` and `divNat_eq`
prove them equal to the field operations. -/

/-- Addition of rationals through `mkRat` (provably equal to `+`,
see `qadd_eq`). -/
def qadd (a b : ℚ) : ℚ :=
  mkRat (a.num * (b.den : Int) + b.num * (a.den : Int)) (a.den * b.den)

/-- `sum(...)` of a list of rationals through `qadd` (provably equal to
`List.sum`, see `qsum_eq`). -/
def qsum (l : List ℚ) : ℚ :=
  l.foldr qadd 0

/-- Division of a rational by a count through `mkRat` (provably equal to
`· / ·`, see `divNat_eq`). -/
def divNat (a : ℚ) (n : Nat) : ℚ :=
  mkRat a.num (a.den * n)

/-- Insertion-ordered association-list update, mirroring Python's
(default)dict semantics: apply `f` to the value stored at `k`, or append
`(k, f d)` when `k` is absent (`d` is the defaultdict default). -/
def upsert {α : Type} (k : String) (f : α → α) (d : α) : List (String × α) → List (String × α)
  | [] => [(k, f d)]
  | kv :: t => if kv.1 = k then (kv.1, f kv.2) :: t else kv :: upsert k f d t

/-- Association-list lookup with default (`dict.get(k, d)`). -/
def lookupD {α : Type} (m : List (String × α)) (k : String) (d : α) : α :=
  match m.find? (fun kv => kv.1 = k) with
  | some kv => kv.2
  | none => d

/-- The grouping step of `calculate_consistency`: a `defaultdict` of
`defaultdict(list)` keyed by `question_id` then `version_type`, each leaf
collecting the extracted values in record order. -/
def groupResponses (responses : List ResponseRecord) :
    List (String × List (String × List (Option ℚ))) :=
  responses.foldl (fun m r =>
    upsert r.question_id
      (upsert r.version_type (fun l => l ++ [extract_number r.answer]) [])
      [] m) []

/-- Number of occurrences of a value in an answer list
(`answers.count(x)`). -/
def countVal (x : Option ℚ) (l : List (Option ℚ)) : Nat :=
  (l.filter (fun y => y = x)).length

/-- `max(set(answers), key=answers.count) if answers else None`.  Python
iterates over an unordered set here, so ties between equally frequent
values are resolved arbitrarily (spec §9 flags this as implementation-
defined); this embedding deterministically keeps the first-seen value
among those of maximal count.  Every claim below is invariant under the
tie-break choice. -/
def modeOf (l : List (Option ℚ)) : Option ℚ :=
  match l with
  | [] => none
  | a :: _ => l.foldl (fun best x => if countVal best l < countVal x l then x else best) a

/-- Distinct values of a list in first-occurrence order (the cardinality
of Python's `set(...)`). -/
def dedupVals (l : List (Option ℚ)) : List (Option ℚ) :=
  l.foldl (fun acc x => if x ∈ acc then acc else acc ++ [x]) []

/-- The `version_answers` mapping of `calculate_consistency`: for each of
the three fixed version types in order, the mode of its answers, skipping
versions with no recorded answers. -/
def versionAnswers (versions : List (String × List (Option ℚ))) :
    List (String × Option ℚ) :=
  (["direct", "contextualized", "variation"].map
      (fun vt => (vt, lookupD versions vt []))).filterMap
    (fun p => if p.2 = [] then none else some (p.1, modeOf p.2))

/-- The set `U` of `calculate_consistency`: the distinct representative
values of a `version_answers` mapping, with `None` ("no extraction")
discarded (`unique_answers` minus `None` in the source). -/
def distinctReps (va : List (String × Option ℚ)) : List (Option ℚ) :=
  (dedupVals (va.map (fun p => p.2))).filter (fun x => x ≠ none)

/-- The paraphrase-consistency score of one question: `0.0` unless all
three version types have a representative value; otherwise scored by the
number of distinct representatives after discarding `None`, with the
`else` branch (covering counts of three or more, and zero) giving `0.33`.
The source's float literals `0.67` and `0.33` are written `mkRat 67 100`
and `mkRat 33 100` (equal values, kernel-evaluable). -/
def paraphraseConsistency (versions : List (String × List (Option ℚ))) : ℚ :=
  let va := versionAnswers versions
  if va.length = 3 then
    let uniq := distinctReps va
    if uniq.length = 1 then 1
    else if uniq.length = 2 then mkRat 67 100
    else mkRat 33 100
  else 0

/-- The test-retest consistency of one question: versions with more than
one repetition score (frequency of their mode) / (repetition count), the
rest are skipped; the question scores the mean of these, or `0.0` when no
version qualifies. -/
def retestConsistency (versions : List (String × List (Option ℚ))) : ℚ :=
  let scores := versions.filterMap (fun p =>
    if 1 < p.2.length then
      some (mkRat (countVal (modeOf p.2) p.2 : Int) p.2.length)
    else none)
  if scores.length = 0 then 0 else divNat (qsum scores) scores.length

/-- One entry of the `per_question` list of `calculate_consistency`. -/
structure PerQuestion where
  question_id : String
  paraphrase_consistency : ℚ
  retest_consistency : ℚ
  overall_consistency_score : ℚ
  version_answers : List (String × Option ℚ)
deriving DecidableEq, Repr

/-- Return value of `calculate_consistency`. -/
structure ConsistencyResult where
  per_question : List PerQuestion
  average_paraphrase_consistency : ℚ
  average_retest_consistency : ℚ
  average_overall_consistency_score : ℚ
deriving DecidableEq, Repr

/-- The per-question score record built inside `calculate_consistency`. -/
def perQuestionOf (qv : String × List (String × List (Option ℚ))) : PerQuestion :=
  { question_id := qv.1
    paraphrase_consistency := paraphraseConsistency qv.2
    retest_consistency := retestConsistency qv.2
    overall_consistency_score :=
      divNat (qadd (paraphraseConsistency qv.2) (retestConsistency qv.2)) 2
    version_answers := versionAnswers qv.2 }

/-- `ConsistencyEvaluator.calculate_consistency`.  The source divides by
`len(consistency_scores)` without a guard when averaging; on an empty
record list this is a division by zero (`ZeroDivisionError`), modelled
here as `none`. -/
def calculate_consistency (responses : List ResponseRecord) : Option ConsistencyResult :=
  let scores := (groupResponses responses).map perQuestionOf
  if scores.length = 0 then none
  else
    some
      { per_question := scores
        average_paraphrase_consistency :=
          divNat (qsum (scores.map (fun s => s.paraphrase_consistency))) scores.length
        average_retest_consistency :=
          divNat (qsum (scores.map (fun s => s.retest_consistency))) scores.length
        average_overall_consistency_score :=
          divNat (qsum (scores.map (fun s => s.overall_consistency_score))) scores.length }

/-! ## Error breakdown and report -/

/-- The `{correct, incorrect, no_answer}` counter triple of one bucket. -/
structure Counts where
  correct : Nat
  incorrect : Nat
  no_answer : Nat
deriving DecidableEq, Repr

/-- Return value of `analyze_errors`. -/
structure ErrorAnalysis where
  error_types : List (String × Nat)
  by_category : List (String × Counts)
  by_operation : List (String × Counts)
deriving DecidableEq, Repr

/-- One iteration of the `analyze_errors` loop: classify the record and
bump exactly one counter in its category bucket and one in its operation
bucket (plus the `error_types` tally for the two error outcomes). -/
def errStep (tol : ℚ) (acc : ErrorAnalysis) (r : ResponseRecord) : ErrorAnalysis :=
  let category := r.category.getD "unknown"
  let operation := r.operation.getD "unknown"
  match extract_number r.answer with
  | none =>
    { error_types := upsert "no_answer" (fun n => n + 1) 0 acc.error_types
      by_category :=
        upsert category (fun c => { c with no_answer := c.no_answer + 1 }) ⟨0, 0, 0⟩ acc.by_category
      by_operation :=
        upsert operation (fun c => { c with no_answer := c.no_answer + 1 }) ⟨0, 0, 0⟩ acc.by_operation }
  | some v =>
    if is_correct tol (some v) r.ground_truth then
      { acc with
        by_category :=
          upsert category (fun c => { c with correct := c.correct + 1 }) ⟨0, 0, 0⟩ acc.by_category
        by_operation :=
          upsert operation (fun c => { c with correct := c.correct + 1 }) ⟨0, 0, 0⟩ acc.by_operation }
    else
      { error_types := upsert "incorrect_calculation" (fun n => n + 1) 0 acc.error_types
        by_category :=
          upsert category (fun c => { c with incorrect := c.incorrect + 1 }) ⟨0, 0, 0⟩ acc.by_category
        by_operation :=
          upsert operation (fun c => { c with incorrect := c.incorrect + 1 }) ⟨0, 0, 0⟩ acc.by_operation }

/-- `ConsistencyEvaluator.analyze_errors`. -/
def analyze_errors (tol : ℚ) (responses : List ResponseRecord) : ErrorAnalysis :=
  responses.foldl (errStep tol) ⟨[], [], []⟩

/-- Return value of `generate_report`. -/
structure Report where
  accuracy : AccuracyResult
  consistency : ConsistencyResult
  error_analysis : ErrorAnalysis
  total_responses : Nat
deriving DecidableEq

/-- `ConsistencyEvaluator.generate_report`: pure composition of the three
aggregators; the `ZeroDivisionError` of `calculate_consistency` on an
empty record list propagates (`none`). -/
def generate_report (tol : ℚ) (responses : List ResponseRecord) : Option Report :=
  match calculate_consistency responses with
  | none => none
  | some c =>
    some
      { accuracy := calculate_accuracy tol responses
        consistency := c
        error_analysis := analyze_errors tol responses
        total_responses := responses.length }

/-! ## Specification-side comparison definitions and concrete scenarios -/

/-- Modelled from the spec's wording (§4.4, retest consistency): the mean,
over the versions having at least two repetitions, of (count of
repetitions matching the version's mode) / (repetition count), and `0.0`
when no version qualifies.  Used to compare the source's `filterMap`-style
loop against the spec's phrasing. -/
def retestSpec (versions : List (String × List (Option ℚ))) : ℚ :=
  let qual := versions.filter (fun p => 2 ≤ p.2.length)
  if qual.length = 0 then 0
  else
    (qual.map (fun p => (countVal (modeOf p.2) p.2 : ℚ) / (p.2.length : ℚ))).sum /
      (qual.length : ℚ)

/-- A sample record for one fixed question, as the upstream collaborator
would produce it. -/
def mkRec (v : String) (rep : Nat) (a : String) : ResponseRecord :=
  { question_id := "q", version_type := v, repetition := rep, answer := a,
    ground_truth := 100, category := some "arithmetic", operation := some "addition" }

/-- Scenario D of the spec: one question, two repetitions per version,
`direct` always extracting `100`, `contextualized` always `50`,
`variation` always `200`. -/
def scenarioD : List ResponseRecord :=
  [mkRec "direct" 1 "答案是 100", mkRec "direct" 2 "答案是 100",
   mkRec "contextualized" 1 "答案是 50", mkRec "contextualized" 2 "答案是 50",
   mkRec "variation" 1 "答案是 200", mkRec "variation" 2 "答案是 200"]

/-! ## Helper lemmas -/

theorem mkRat_cast_div (n : ℤ) (d : ℕ) : mkRat n d = (n : ℚ) / (d : ℚ) := by
  rw [Rat.mkRat_eq_divInt, Rat.divInt_eq_div]
  norm_cast

theorem qadd_eq (a b : ℚ) : qadd a b = a + b := by
  have ha : ((a.den : ℚ)) ≠ 0 := Nat.cast_ne_zero.mpr a.den_nz
  have hb : ((b.den : ℚ)) ≠ 0 := Nat.cast_ne_zero.mpr b.den_nz
  rw [qadd, mkRat_cast_div]
  conv_rhs => rw [← Rat.num_div_den a, ← Rat.num_div_den b]
  rw [div_add_div _ _ ha hb]
  push_cast
  ring_nf

theorem qsum_eq (l : List ℚ) : qsum l = l.sum := by
  induction l with
  | nil => rfl
  | cons a t ih =>
    simp only [qsum, List.foldr_cons] at ih ⊢
    rw [qadd_eq, ih, List.sum_cons]

theorem divNat_eq (a : ℚ) (n : Nat) : divNat a n = a / (n : ℚ) := by
  by_cases hn : n = 0
  · subst hn
    simp [divNat, mkRat_cast_div]
  · have ha : ((a.den : ℚ)) ≠ 0 := Nat.cast_ne_zero.mpr a.den_nz
    have hn2 : ((n : ℚ)) ≠ 0 := Nat.cast_ne_zero.mpr hn
    rw [divNat, mkRat_cast_div]
    conv_rhs => rw [← Rat.num_div_den a]
    push_cast
    rw [div_div]

theorem classifyAcc_le (tol : ℚ) (r : ResponseRecord) :
    (classifyAcc tol r).1 + (classifyAcc tol r).2.1 ≤ 1 := by
  unfold classifyAcc
  cases extract_number r.answer with
  | none => simp
  | some v => by_cases h : is_correct tol (some v) r.ground_truth <;> simp [h]

theorem accFold_le (tol : ℚ) (rs : List ResponseRecord) :
    (accFold tol rs).1 + (accFold tol rs).2.1 ≤ rs.length := by
  induction rs with
  | nil => simp [accFold]
  | cons r rs ih =>
    have h := classifyAcc_le tol r
    simp only [accFold, List.length_cons]
    omega

/-- Total of the three counters of one bucket. -/
def sumCounts (c : Counts) : Nat :=
  c.correct + c.incorrect + c.no_answer

/-- Grand total of all counters across the buckets of a breakdown map. -/
def bucketTotal (m : List (String × Counts)) : Nat :=
  (m.map (fun p => sumCounts p.2)).sum

theorem bucketTotal_upsert (k : String) (f : Counts → Counts)
    (hf : ∀ c, sumCounts (f c) = sumCounts c + 1) (m : List (String × Counts)) :
    bucketTotal (upsert k f ⟨0, 0, 0⟩ m) = bucketTotal m + 1 := by
  induction m with
  | nil =>
    have h := hf ⟨0, 0, 0⟩
    simp [upsert, bucketTotal, sumCounts] at h ⊢
    omega
  | cons kv t ih =>
    have h := hf kv.2
    by_cases hk : kv.1 = k <;> simp [upsert, hk, bucketTotal, sumCounts] at h ih ⊢ <;> omega

theorem errStep_bucketTotal (tol : ℚ) (acc : ErrorAnalysis) (r : ResponseRecord) :
    bucketTotal (errStep tol acc r).by_category = bucketTotal acc.by_category + 1 ∧
    bucketTotal (errStep tol acc r).by_operation = bucketTotal acc.by_operation + 1 := by
  unfold errStep
  cases extract_number r.answer with
  | none =>
    exact ⟨bucketTotal_upsert _ _ (fun c => by simp [sumCounts]; omega) _,
           bucketTotal_upsert _ _ (fun c => by simp [sumCounts]; omega) _⟩
  | some v =>
    by_cases h : is_correct tol (some v) r.ground_truth <;>
      simp only [h, if_true, if_false, Bool.false_eq_true] <;>
      exact ⟨bucketTotal_upsert _ _ (fun c => by simp [sumCounts]; omega) _,
             bucketTotal_upsert _ _ (fun c => by simp [sumCounts]; omega) _⟩

theorem errFold_bucketTotal (tol : ℚ) (rs : List ResponseRecord) (acc : ErrorAnalysis) :
    bucketTotal (rs.foldl (errStep tol) acc).by_category = bucketTotal acc.by_category + rs.length ∧
    bucketTotal (rs.foldl (errStep tol) acc).by_operation = bucketTotal acc.by_operation + rs.length := by
  induction rs generalizing acc with
  | nil => simp
  | cons r rs ih =>
    have h := errStep_bucketTotal tol acc r
    have h2 := ih (errStep tol acc r)
    simp only [List.foldl_cons, List.length_cons]
    omega

/-! ## Claim theorems -/

/-- C10: in `analyze_errors`, every record bumps exactly one counter in
exactly one `by_category` bucket and one `by_operation` bucket, so the
grand total of counters in each breakdown equals the number of records. -/
theorem error_breakdown_sums (tol : ℚ) (rs : List ResponseRecord) :
    bucketTotal (analyze_errors tol rs).by_category = rs.length ∧
    bucketTotal (analyze_errors tol rs).by_operation = rs.length := by
  have h := errFold_bucketTotal tol rs ⟨[], [], []⟩
  simpa [analyze_errors, bucketTotal] using h

/-- C7: the counts of `calculate_accuracy` satisfy
`correct + incorrect + no_answer = total` (with `incorrect` computed as
the difference), and the accuracy rate is `correct / total`, lies in
`[0, 1]`, and is `0.0` on an empty record list. -/
theorem accuracy_counts_and_rate (tol : ℚ) (rs : List ResponseRecord) :
    (calculate_accuracy tol rs).correct + (calculate_accuracy tol rs).incorrect +
        (calculate_accuracy tol rs).no_answer = (calculate_accuracy tol rs).total_responses ∧
    0 ≤ (calculate_accuracy tol rs).accuracy ∧ (calculate_accuracy tol rs).accuracy ≤ 1 ∧
    (calculate_accuracy tol rs).accuracy =
      (if (calculate_accuracy tol rs).total_responses = 0 then 0
       else ((calculate_accuracy tol rs).correct : ℚ) /
         ((calculate_accuracy tol rs).total_responses : ℚ)) := by
  have hle := accFold_le tol rs
  simp only [calculate_accuracy]
  refine ⟨by omega, ?_, ?_, ?_⟩
  · split
    · positivity
    · norm_num
  · split
    case isTrue h =>
      rw [div_le_one (by exact_mod_cast h)]
      exact_mod_cast le_trans (Nat.le_add_right _ _) hle
    case isFalse h => norm_num
  · rcases Nat.eq_zero_or_pos rs.length with h | h
    · simp [h]
    · simp [h, Nat.pos_iff_ne_zero.mp h]

/-- C2 (code bug): on an empty record list `calculate_consistency`
divides `sum(...)` by `len(consistency_scores) = 0` and raises
`ZeroDivisionError` instead of reporting the averages as `0.0`; the
fault propagates through `generate_report`.  In this embedding the
fault is the `none` result. -/
theorem consistency_empty_faults :
    calculate_consistency ([] : List ResponseRecord) = none ∧
    generate_report (0.01 : ℚ) ([] : List ResponseRecord) = none := by
  constructor <;> rfl

/-- C8: extraction and report building are pure functions of their
arguments in this embedding (the source touches no state besides its
inputs), so the same text always extracts to the same optional value and
building the report twice from the same record list gives identical
reports. -/
theorem extraction_deterministic_report_idempotent :
    (∀ t : String, extract_number t = extract_number t) ∧
    (∀ (tol : ℚ) (rs : List ResponseRecord), generate_report tol rs = generate_report tol rs) :=
  ⟨fun _ => rfl, fun _ _ => rfl⟩

/-- C1 (counterexample): on the thousands-separated text
`"總計 12,345.6 元"` the extractor does not return `12345.6`: the
unit-suffix rule (rule 2) fires before the thousands rule (rule 4) ever
gets a chance, and rule 2's leftmost match is the fragment `345.6` after
the comma. -/
theorem extract_thousands_separated_not_12345 :
    extract_number "總計 12,345.6 元" ≠ some (12345.6 : ℚ) := by
  have h : extract_number "總計 12,345.6 元" = some (mkRat 3456 10) := by decide
  rw [h]
  norm_num [mkRat_cast_div]

/-- C1 (amended): on `"總計 12,345.6 元"` the extractor returns `345.6`,
the leftmost unit-suffix match, which is the fragment of the
thousands-separated number after its comma. -/
theorem extract_thousands_separated_returns_345 :
    extract_number "總計 12,345.6 元" = some (345.6 : ℚ) := by
  have h : extract_number "總計 12,345.6 元" = some (mkRat 3456 10) := by decide
  rw [h]
  norm_num [mkRat_cast_div]

theorem mkRat33 : mkRat 33 100 = (0.33 : ℚ) := by
  norm_num [mkRat_cast_div]

theorem mkRat67 : mkRat 67 100 = (0.67 : ℚ) := by
  norm_num [mkRat_cast_div]

theorem mkRat_natCast_div (c n : ℕ) : mkRat (c : Int) n = (c : ℚ) / (n : ℚ) := by
  rw [mkRat_cast_div]
  push_cast
  ring

theorem tryRules_findSome (ps : List Pat) (t : String) :
    tryRules ps t =
      ps.findSome? (fun p => ((findallPat p t).head?).bind
        (fun m => parseFloat (stripCommas m.data))) := by
  induction ps with
  | nil => rfl
  | cons p ps ih =>
    simp only [tryRules, List.findSome?_cons]
    cases hf : findallPat p t with
    | nil => simpa using ih
    | cons m ms =>
      cases hp : parseFloat (stripCommas m.data) with
      | none => simpa [hp] using ih
      | some v => simp [hp]

/-- C4: the extractor tries the four rules strictly in the listed order,
takes the first (leftmost) match of the first rule that has any, and a
parse failure inside a matched rule falls through to the next rule, never
to the rule's next occurrence in the text — i.e. `extract_number` is
exactly `findSome?` of (parse of the first `findall` hit) over the
ordered rule list. -/
theorem extract_number_first_rule_first_match (t : String) :
    extract_number t =
      patterns.findSome? (fun p => ((findallPat p t).head?).bind
        (fun m => parseFloat (stripCommas m.data))) := by
  by_cases ht : t = ""
  · subst ht
    rfl
  · rw [extract_number, if_neg ht]
    exact tryRules_findSome patterns t

/-- C3 (counterexample): in Scenario D (one question, two repetitions
per version, extractions constantly `100` / `50` / `200`) the code does
produce paraphrase consistency `0.33` and retest consistency `1.0`, but
the overall consistency score is not the claimed `0.67`. -/
theorem scenarioD_ocs_not_067 :
    (calculate_consistency scenarioD).map
        (fun res => res.per_question.map
          (fun pq => (pq.paraphrase_consistency, pq.retest_consistency)))
      = some [((0.33 : ℚ), (1 : ℚ))] ∧
    (calculate_consistency scenarioD).map
        (fun res => res.per_question.map (fun pq => pq.overall_consistency_score))
      ≠ some [(0.67 : ℚ)] := by
  constructor
  · have h : (calculate_consistency scenarioD).map
        (fun res => res.per_question.map
          (fun pq => (pq.paraphrase_consistency, pq.retest_consistency)))
        = some [(mkRat 33 100, (1 : ℚ))] := by decide
    rw [h, mkRat33]
  · have h : (calculate_consistency scenarioD).map
        (fun res => res.per_question.map (fun pq => pq.overall_consistency_score))
        = some [mkRat 133 200] := by decide
    rw [h]
    norm_num [mkRat_cast_div]

/-- C3 (amended): in Scenario D the overall consistency score is
`(0.33 + 1.0) / 2 = 0.665`, the exact mean the code computes, not `0.67`. -/
theorem scenarioD_consistency_amended :
    (calculate_consistency scenarioD).map
        (fun res => res.per_question.map
          (fun pq => (pq.paraphrase_consistency, pq.retest_consistency,
            pq.overall_consistency_score)))
      = some [((0.33 : ℚ), (1 : ℚ), (0.665 : ℚ))] := by
  have h : (calculate_consistency scenarioD).map
      (fun res => res.per_question.map
        (fun pq => (pq.paraphrase_consistency, pq.retest_consistency,
          pq.overall_consistency_score)))
      = some [(mkRat 33 100, (1 : ℚ), mkRat 133 200)] := by decide
  rw [h]
  norm_num [mkRat_cast_div]

theorem mem_dedupVals_aux {l acc : List (Option ℚ)} {x : Option ℚ}
    (hx : x ∈ l.foldl (fun a y => if y ∈ a then a else a ++ [y]) acc) : x ∈ acc ∨ x ∈ l := by
  induction l generalizing acc with
  | nil => exact Or.inl hx
  | cons y t ih =>
    simp only [List.foldl_cons] at hx
    rcases ih hx with h | h
    · by_cases hy : y ∈ acc
      · rw [if_pos hy] at h
        exact Or.inl h
      · rw [if_neg hy] at h
        rcases List.mem_append.1 h with h2 | h2
        · exact Or.inl h2
        · simp only [List.mem_singleton] at h2
          subst h2
          exact Or.inr (List.mem_cons_self _ _)
    · exact Or.inr (List.mem_cons_of_mem _ h)

theorem mem_dedupVals {l : List (Option ℚ)} {x : Option ℚ} (hx : x ∈ dedupVals l) : x ∈ l := by
  rcases mem_dedupVals_aux hx with h | h
  · simp at h
  · exact h

theorem per_question_mem {rs : List ResponseRecord} {res : ConsistencyResult}
    (h : calculate_consistency rs = some res) {pq : PerQuestion}
    (hpq : pq ∈ res.per_question) :
    ∃ qv ∈ groupResponses rs, pq = perQuestionOf qv := by
  simp only [calculate_consistency] at h
  split at h
  · exact absurd h (by simp)
  · have hres := Option.some.inj h
    subst hres
    obtain ⟨qv, hqv, hpq2⟩ := List.mem_map.1 hpq
    exact ⟨qv, hqv, hpq2.symm⟩

theorem paraphraseConsistency_eq (v : List (String × List (Option ℚ))) :
    paraphraseConsistency v =
      if (versionAnswers v).length = 3 then
        (if (distinctReps (versionAnswers v)).length = 1 then 1
         else if (distinctReps (versionAnswers v)).length = 2 then mkRat 67 100
         else mkRat 33 100)
      else 0 := rfl

/-- C5: every per-question paraphrase consistency lies in
`{0.0, 0.33, 0.67, 1.0}`; it is `0.0` when the three fixed versions do
not all have representative values, and otherwise `1.0` / `0.67` / `0.33`
according as the set of distinct representative values (excluding "no
extraction") has size 1, 2, or at least 3. -/
theorem paraphrase_consistency_values (rs : List ResponseRecord) (res : ConsistencyResult)
    (h : calculate_consistency rs = some res) (pq : PerQuestion)
    (hpq : pq ∈ res.per_question) :
    (pq.paraphrase_consistency = 0 ∨ pq.paraphrase_consistency = 0.33 ∨
        pq.paraphrase_consistency = 0.67 ∨ pq.paraphrase_consistency = 1) ∧
      (pq.version_answers.length ≠ 3 → pq.paraphrase_consistency = 0) ∧
      (pq.version_answers.length = 3 →
        ((distinctReps pq.version_answers).length = 1 → pq.paraphrase_consistency = 1) ∧
        ((distinctReps pq.version_answers).length = 2 → pq.paraphrase_consistency = 0.67) ∧
        (3 ≤ (distinctReps pq.version_answers).length → pq.paraphrase_consistency = 0.33)) := by
  obtain ⟨qv, hqv, rfl⟩ := per_question_mem h hpq
  simp only [perQuestionOf]
  rw [paraphraseConsistency_eq]
  by_cases h3 : (versionAnswers qv.2).length = 3
  · rw [if_pos h3]
    by_cases h1 : (distinctReps (versionAnswers qv.2)).length = 1
    · rw [if_pos h1]
      exact ⟨Or.inr (Or.inr (Or.inr rfl)), fun hn => absurd h3 hn,
        fun _ => ⟨fun _ => rfl, fun h2 => absurd h2 (by omega), fun hg => absurd hg (by omega)⟩⟩
    · by_cases h2 : (distinctReps (versionAnswers qv.2)).length = 2
      · rw [if_neg h1, if_pos h2]
        exact ⟨Or.inr (Or.inr (Or.inl mkRat67)), fun hn => absurd h3 hn,
          fun _ => ⟨fun hh => absurd hh h1, fun _ => mkRat67, fun hg => absurd hg (by omega)⟩⟩
      · rw [if_neg h1, if_neg h2]
        exact ⟨Or.inr (Or.inl mkRat33), fun hn => absurd h3 hn,
          fun _ => ⟨fun hh => absurd hh h1, fun hh => absurd hh h2, fun _ => mkRat33⟩⟩
  · rw [if_neg h3]
    exact ⟨Or.inl rfl, fun _ => rfl, fun hh => absurd hh h3⟩

/-- A one-record list and the consistency result it produces, used to
instantiate the paraphrase-consistency theorem at a concrete input. -/
def sampleSingle : List ResponseRecord :=
  [{ question_id := "w", version_type := "direct", repetition := 1, answer := "答案是 801",
     ground_truth := 801, category := none, operation := none }]

/-- The per-question entry `calculate_consistency` produces for
`sampleSingle`. -/
def samplePQ : PerQuestion :=
  { question_id := "w", paraphrase_consistency := 0, retest_consistency := 0,
    overall_consistency_score := 0, version_answers := [("direct", some (mkRat 801 1))] }

/-- The full consistency result for `sampleSingle`. -/
def sampleRes : ConsistencyResult :=
  { per_question := [samplePQ], average_paraphrase_consistency := 0,
    average_retest_consistency := 0, average_overall_consistency_score := 0 }

/-- Witness for C5 at the concrete record list `sampleSingle`. -/
theorem paraphrase_consistency_values_witness :
    samplePQ.paraphrase_consistency = 0 ∨ samplePQ.paraphrase_consistency = 0.33 ∨
      samplePQ.paraphrase_consistency = 0.67 ∨ samplePQ.paraphrase_consistency = 1 :=
  (paraphrase_consistency_values sampleSingle sampleRes (by decide) samplePQ (by decide)).1

theorem filterMap_if {α β : Type} (c : α → Prop) [DecidablePred c] (f : α → β) (l : List α) :
    (l.filterMap fun a => if c a then some (f a) else none) =
      (l.filter fun a => c a).map f := by
  induction l with
  | nil => rfl
  | cons a t ih => by_cases h : c a <;> simp [h, ih]

/-- C6: the retest-consistency loop of the source equals the spec's
formulation `retestSpec` (versions with fewer than two repetitions are
excluded rather than scored 0, each qualifying version scores
mode-frequency over repetition count, the question scores the mean over
qualifiers and `0.0` when none qualify), and every per-question retest
consistency lies in `[0, 1]`. -/
theorem retest_consistency_spec_and_bounds :
    (∀ v : List (String × List (Option ℚ)), retestConsistency v = retestSpec v) ∧
    (∀ (rs : List ResponseRecord) (res : ConsistencyResult),
        calculate_consistency rs = some res →
        ∀ pq ∈ res.per_question,
          0 ≤ pq.retest_consistency ∧ pq.retest_consistency ≤ 1) := by
  have heq : ∀ v : List (String × List (Option ℚ)), retestConsistency v = retestSpec v := by
    intro v
    simp only [retestConsistency, retestSpec]
    have hfm : (v.filterMap fun p =>
          if 1 < p.2.length then some (mkRat (countVal (modeOf p.2) p.2 : Int) p.2.length)
          else none) =
        (v.filter fun p => 2 ≤ p.2.length).map
          (fun p => mkRat (countVal (modeOf p.2) p.2 : Int) p.2.length) := by
      rw [filterMap_if (fun p : String × List (Option ℚ) => 1 < p.2.length)
        (fun p => mkRat (countVal (modeOf p.2) p.2 : Int) p.2.length) v]
      congr 1
    rw [hfm]
    simp only [mkRat_natCast_div, List.length_map]
    by_cases hq : (v.filter fun p => 2 ≤ p.2.length).length = 0
    · simp [hq]
    · rw [if_neg hq, if_neg hq, divNat_eq, qsum_eq]
  refine ⟨heq, ?_⟩
  intro rs res h pq hpq
  obtain ⟨qv, hqv, rfl⟩ := per_question_mem h hpq
  simp only [perQuestionOf]
  rw [heq]
  simp only [retestSpec]
  by_cases hq : (qv.2.filter fun p => 2 ≤ p.2.length).length = 0
  · simp [hq]
  · rw [if_neg hq]
    have hpos : (0 : ℚ) < ((qv.2.filter fun p => 2 ≤ p.2.length).length : ℚ) := by
      exact_mod_cast Nat.pos_of_ne_zero hq
    have hmem : ∀ x ∈ (qv.2.filter fun p => 2 ≤ p.2.length).map
        (fun p => (countVal (modeOf p.2) p.2 : ℚ) / (p.2.length : ℚ)), 0 ≤ x ∧ x ≤ 1 := by
      intro x hx
      obtain ⟨p, hp, rfl⟩ := List.mem_map.1 hx
      have hlen : 2 ≤ p.2.length := by
        have h2 := (List.mem_filter.1 hp).2
        simpa using h2
      have hcv : countVal (modeOf p.2) p.2 ≤ p.2.length := by
        rw [countVal]
        exact List.length_filter_le _ _
      refine ⟨by positivity, ?_⟩
      rw [div_le_one (by exact_mod_cast (by omega : 0 < p.2.length))]
      exact_mod_cast hcv
    constructor
    · apply div_nonneg _ (le_of_lt hpos)
      exact List.sum_nonneg (fun x hx => (hmem x hx).1)
    · rw [div_le_one hpos]
      calc ((qv.2.filter fun p => 2 ≤ p.2.length).map
            (fun p => (countVal (modeOf p.2) p.2 : ℚ) / (p.2.length : ℚ))).sum
          ≤ ((qv.2.filter fun p => 2 ≤ p.2.length).map
            (fun p => (countVal (modeOf p.2) p.2 : ℚ) / (p.2.length : ℚ))).length • (1 : ℚ) :=
            List.sum_le_card_nsmul _ _ (fun x hx => (hmem x hx).2)
        _ = ((qv.2.filter fun p => 2 ≤ p.2.length).length : ℚ) := by
            simp [List.length_map]

/-- A two-repetition record list for one version of one question, used to
instantiate the retest-consistency theorem at a concrete input. -/
def samplePair : List ResponseRecord :=
  [{ question_id := "r", version_type := "direct", repetition := 1, answer := "答案是 100",
     ground_truth := 100, category := none, operation := none },
   { question_id := "r", version_type := "direct", repetition := 2, answer := "答案是 100",
     ground_truth := 100, category := none, operation := none }]

/-- The per-question entry `calculate_consistency` produces for
`samplePair`. -/
def samplePairPQ : PerQuestion :=
  { question_id := "r", paraphrase_consistency := 0, retest_consistency := 1,
    overall_consistency_score := mkRat 1 2,
    version_answers := [("direct", some (mkRat 100 1))] }

/-- The full consistency result for `samplePair`. -/
def samplePairRes : ConsistencyResult :=
  { per_question := [samplePairPQ], average_paraphrase_consistency := 0,
    average_retest_consistency := 1, average_overall_consistency_score := mkRat 1 2 }

/-- Witness for C6 at the concrete record list `samplePair`. -/
theorem retest_consistency_spec_and_bounds_witness :
    0 ≤ samplePairPQ.retest_consistency ∧ samplePairPQ.retest_consistency ≤ 1 :=
  retest_consistency_spec_and_bounds.2 samplePair samplePairRes (by decide)
    samplePairPQ (by decide)

/-- C9: when all three fixed versions have representative values but every
one of them is "no extraction", the distinct-value set is empty after
`None` is excluded, and the `else` branch of the scoring ladder assigns
`0.33` — not `0.0`. -/
theorem paraphrase_all_none_scores_033 (rs : List ResponseRecord) (res : ConsistencyResult)
    (h : calculate_consistency rs = some res) (pq : PerQuestion)
    (hpq : pq ∈ res.per_question) (h3 : pq.version_answers.length = 3)
    (hall : ∀ p ∈ pq.version_answers, p.2 = none) :
    pq.paraphrase_consistency = 0.33 := by
  obtain ⟨qv, hqv, rfl⟩ := per_question_mem h hpq
  simp only [perQuestionOf] at h3 hall ⊢
  have hd : distinctReps (versionAnswers qv.2) = [] := by
    rw [distinctReps, List.filter_eq_nil_iff]
    intro x hx
    obtain ⟨p, hp, rfl⟩ := List.mem_map.1 (mem_dedupVals hx)
    simp [hall p hp]
  rw [paraphraseConsistency_eq, if_pos h3, hd]
  norm_num [mkRat33]

/-- A record list whose three versions all fail extraction, used to
instantiate the all-`None` paraphrase theorem at a concrete input. -/
def sampleNone : List ResponseRecord :=
  [mkRec "direct" 1 "x", mkRec "contextualized" 1 "y", mkRec "variation" 1 "z"]

/-- The per-question entry `calculate_consistency` produces for
`sampleNone`. -/
def sampleNonePQ : PerQuestion :=
  { question_id := "q", paraphrase_consistency := mkRat 33 100, retest_consistency := 0,
    overall_consistency_score := mkRat 33 200,
    version_answers := [("direct", none), ("contextualized", none), ("variation", none)] }

/-- The full consistency result for `sampleNone`. -/
def sampleNoneRes : ConsistencyResult :=
  { per_question := [sampleNonePQ], average_paraphrase_consistency := mkRat 33 100,
    average_retest_consistency := 0, average_overall_consistency_score := mkRat 33 200 }

/-- Witness for C9 at the concrete record list `sampleNone`. -/
theorem paraphrase_all_none_scores_033_witness :
    sampleNonePQ.paraphrase_consistency = 0.33 :=
  paraphrase_all_none_scores_033 sampleNone sampleNoneRes (by decide) sampleNonePQ
    (by decide) (by decide) (by decide)
